import Mathlib

/-!
# Adaptive reverse proxy: classification and delivery pipeline

A shallow embedding of `src/app.js` (the `/proxy` route, `buildSafeHeaders`,
`contentTypeFrom`) and of `src/proxy/puppeteerHandler.js` (the header subset
given to the renderer), followed by theorems about header sanitisation, URL
validation, caching, classification and dispatch.

URLs, header values and response bodies are Lean strings (sequences of Unicode
scalar values); strings inside a parsed payload may also hold unpaired
surrogates (`JsString`). Objects with string values are association lists in
property order, and the network and the headless browser are functions of an
`Upstream` record. Exceptions are `Except.error` values carrying the message.
-/

namespace Proxy

/-! ## String primitives -/

/-- `String.prototype.includes` on character lists: `pat` occurs somewhere in `s`. -/
def includesChars : List Char → List Char → Bool
  | [], pat => pat.isPrefixOf []
  | c :: cs, pat => pat.isPrefixOf (c :: cs) || includesChars cs pat

/-- `s.includes(pat)`. -/
def jsIncludes (s pat : String) : Bool := includesChars s.data pat.data

/-- `s.startsWith(pat)`. -/
def jsStartsWith (s pat : String) : Bool := pat.data.isPrefixOf s.data

/-! ## Regular expressions

The five regular-expression literals of `app.js` use literal characters,
grouping, alternation, `?` and the end anchor `$`, all under the `i` flag and
without the `m` flag. -/

/-- Regular-expression syntax, as far as `app.js` uses it. -/
inductive Rx where
  | eps
  | chr (c : Char)
  | eos
  | seq (a b : Rx)
  | alt (a b : Rx)
  | opt (a : Rx)
  deriving DecidableEq

/-- A run of literal characters. -/
def Rx.lit : List Char → Rx
  | [] => Rx.eps
  | c :: cs => Rx.seq (Rx.chr c) (Rx.lit cs)

/-- All ways of matching `r` at the start of the input, each given by the
input that is left over. Characters are compared case-insensitively (flag
`i`: for the ASCII characters of the patterns this is equality of the ASCII
lower-case forms); `$` matches at the end of the input only. -/
def Rx.run : Rx → List Char → List (List Char)
  | .eps, xs => [xs]
  | .chr _, [] => []
  | .chr c, x :: xs => if x.toLower = c.toLower then [xs] else []
  | .eos, xs => if xs.isEmpty then [xs] else []
  | .seq a b, xs => (a.run xs).flatMap (fun r => b.run r)
  | .alt a b, xs => a.run xs ++ b.run xs
  | .opt a, xs => a.run xs ++ [xs]

/-- `RegExp.prototype.test`: the pattern matches at some position of the input. -/
def Rx.test (r : Rx) : List Char → Bool
  | [] => !(r.run []).isEmpty
  | c :: cs => !(r.run (c :: cs)).isEmpty || Rx.test r cs

/-- Extensions listed in the video pattern. -/
def videoExtensions : List (List Char) :=
  ["mp4".data, "mkv".data, "webm".data, "mov".data, "avi".data]

/-- The pattern `/\.(mp4|mkv|webm|mov|avi)(\?|$)/i` (app.js:124). -/
def videoExtRx : Rx :=
  .seq (.chr '.')
    (.seq (.alt (.lit "mp4".data) (.alt (.lit "mkv".data) (.alt (.lit "webm".data)
        (.alt (.lit "mov".data) (.lit "avi".data)))))
      (.alt (.chr '?') .eos))

/-- The pattern `/\/api\//i` (app.js:125, 149). -/
def apiRx : Rx := .lit "/api/".data

/-- The pattern `/\.json($|\?)/i` (app.js:125, 149). -/
def jsonExtRx : Rx := .seq (.lit ".json".data) (.alt .eos (.chr '?'))

/-- The pattern `/\.html?($|\?)/i` (app.js:126). -/
def htmlExtRx : Rx :=
  .seq (.lit ".htm".data) (.seq (.opt (.chr 'l')) (.alt .eos (.chr '?')))

/-- The pattern `/\.(html?|\/$)/i` (app.js:140): a dot followed either by
`htm` and an optional `l`, or by a slash at the end of the input. -/
def seemsHtmlRx : Rx :=
  .seq (.chr '.') (.alt (.seq (.lit "htm".data) (.opt (.chr 'l'))) (.seq (.chr '/') .eos))

/-! ## Header objects -/

/-- A JavaScript object whose values are strings, in property order. Reading a
property takes the first entry with that key. -/
abbrev Headers := List (String × String)

/-- Assignment `o[k] = v`: an existing property keeps its place, a new one is
added at the end. -/
def setProp (o : Headers) (k v : String) : Headers :=
  if o.any (fun p => p.1 == k) then o.map (fun p => if p.1 == k then (k, v) else p)
  else o ++ [(k, v)]

/-- `Object.assign(target, src)`. -/
def objectAssign (target src : Headers) : Headers :=
  src.foldl (fun t p => setProp t p.1 p.2) target

/-- The allow-list of `buildSafeHeaders` (app.js:67). -/
def whitelist : List String :=
  ["authorization", "cookie", "accept-language", "range", "user-agent", "referer"]

/-- One turn of the loop of `buildSafeHeaders`: `if (clientHeaders[k]) safe[k] = clientHeaders[k]`. -/
def copyIfSet (clientHeaders : Headers) (safe : Headers) (k : String) : Headers :=
  match clientHeaders.lookup k with
  | some v => if v ≠ "" then setProp safe k v else safe
  | none => safe

/-- `buildSafeHeaders(clientHeaders, extra)` (app.js:65-72). The route calls it
with `extra` left at its default `{}`, that is `[]`. -/
def buildSafeHeaders (clientHeaders extra : Headers) : Headers :=
  let safe := whitelist.foldl (copyIfSet clientHeaders) []
  objectAssign (objectAssign [] safe) extra

/-- The entry the loop of `buildSafeHeaders` copies for key `k`, if any. -/
def safeEntry (h : Headers) (k : String) : Option (String × String) :=
  match h.lookup k with
  | some v => if v ≠ "" then some (k, v) else none
  | none => none

/-! ## Classification -/

/-- The values `'video'`, `'json'`, `'html'` returned by `contentTypeFrom`;
`null` is `none`. -/
inductive ContentType where
  | video
  | json
  | html
  deriving DecidableEq

/-- `contentTypeFrom(headers, url)` (app.js:122-134). `headers = none` is the
`null` left by a failed HEAD probe. -/
def contentTypeFrom (headers : Option Headers) (url : String) : Option ContentType :=
  match headers with
  | none =>
    if videoExtRx.test url.data then some .video
    else if apiRx.test url.data || jsonExtRx.test url.data then some .json
    else if htmlExtRx.test url.data then some .html
    else none
  | some hs =>
    let ct := (hs.lookup "content-type").getD ""
    if jsIncludes ct "text/html" then some .html
    else if jsIncludes ct "application/json" || jsIncludes ct "+json" then some .json
    else if jsStartsWith ct "video/" || jsIncludes ct "octet-stream" || jsIncludes ct "mpeg"
      then some .video
    else none

/-- The three delivery strategies of the route. -/
inductive Strategy where
  | render
  | structuredFetch
  | stream
  deriving DecidableEq

/-- The two `if` conditions of the dispatch (app.js:140 and app.js:149), in
order; the stream branch is what is left. -/
def selectStrategy (preType : Option ContentType) (targetUrl : String) : Strategy :=
  if preType = some .html || (preType = none && seemsHtmlRx.test targetUrl.data) then .render
  else if preType = some .json || apiRx.test targetUrl.data || jsonExtRx.test targetUrl.data
    then .structuredFetch
  else .stream

/-! ## JavaScript strings and numbers inside a payload -/

/-- One element of a JavaScript string: a Unicode scalar value (a surrogate
pair counts as the scalar value it encodes), or an unpaired surrogate code
unit, which `JSON.parse` yields for an escape such as `\ud800`. -/
inductive JsUnit where
  | scalar (c : Char)
  | lone (u : Nat)
  deriving DecidableEq

/-- A JavaScript string as a payload can hold it. -/
abbrev JsString := List JsUnit

/-- The JavaScript string with the characters of `s`. -/
def js (s : String) : JsString := s.data.map JsUnit.scalar

/-- The characters of a string that holds no unpaired surrogate; `none` when it holds one. -/
def wellFormed : JsString → Option (List Char)
  | [] => some []
  | .scalar c :: rest => (wellFormed rest).map (fun cs => c :: cs)
  | .lone _ :: _ => none

/-- The text `res.send` puts on the wire: UTF-8 encoding replaces an unpaired
surrogate by U+FFFD. -/
def sentText (s : JsString) : String :=
  String.mk (s.map fun x =>
    match x with
    | .scalar c => c
    | .lone _ => Char.ofNat 65533)

/-- A JavaScript number as far as the route observes it: its string
conversion (`Number::toString`), whether it is finite (`JSON.stringify` writes
`null` for the others), and whether it is truthy (neither zero nor `NaN`). -/
structure JsNumber where
  text : String
  finite : Bool
  nonzero : Bool
  deriving DecidableEq

/-! ## Parsed JSON payloads -/

mutual
/-- The value `apiResp.data` that axios hands over: parsed JSON, or the body as
a string when it is not JSON. -/
inductive Json where
  | null
  | bool (b : Bool)
  | num (x : JsNumber)
  | str (s : JsString)
  | arr (xs : JsonList)
  | obj (kvs : JsonFields)
  deriving DecidableEq
/-- The elements of a JSON array. -/
inductive JsonList where
  | nil
  | cons (x : Json) (xs : JsonList)
  deriving DecidableEq
/-- The own properties of a JSON object, in property order. -/
inductive JsonFields where
  | nil
  | cons (k : JsString) (v : Json) (rest : JsonFields)
  deriving DecidableEq
end

/-- A JavaScript value met in the route: a JSON value, or `undefined` (`none`). -/
abbrev JsVal := Option Json

/-- Own property `k` of an object's property list; `undefined` when missing. -/
def JsonFields.lookup (k : String) : JsonFields → JsVal
  | .nil => none
  | .cons k' v rest => if k' = js k then some v else rest.lookup k

/-- Property read `v.k` for the names `data`, `stream`, `streamingLink`: only
objects carry them; strings, numbers, booleans and arrays give `undefined`. -/
def field (v : JsVal) (k : String) : JsVal :=
  match v with
  | some (.obj kvs) => kvs.lookup k
  | _ => none

/-- JavaScript truthiness (`ToBoolean`). -/
def truthy : JsVal → Bool
  | none => false
  | some .null => false
  | some (.bool b) => b
  | some (.num x) => x.nonzero
  | some (.str s) => !s.isEmpty
  | some (.arr _) => true
  | some (.obj _) => true

/-- The operator `a && b`. -/
def jsAnd (a b : JsVal) : JsVal := if truthy a then b else a

/-- The operator `a || b`. -/
def jsOr (a b : JsVal) : JsVal := if truthy a then a else b

/-- The expression bound to `streamingLink` (app.js:159-162). -/
def findStreamingLink (data : Json) : JsVal :=
  jsOr
    (jsOr
      (jsAnd (jsAnd (some data) (field (some data) "data"))
        (jsOr (field (field (some data) "data") "streamingLink")
          (field (field (some data) "data") "stream")))
      (jsAnd (some data) (field (some data) "streamingLink")))
    (some .null)

/-- Upper- or lower-case hexadecimal digit of a value below 16. -/
def hexDigit (upper : Bool) (n : Nat) : Char :=
  ((if upper then "0123456789ABCDEF" else "0123456789abcdef").data).getD n '0'

/-- `QuoteJSONString`, one character. -/
def quoteChar (c : Char) : List Char :=
  if c = '"' then ['\\', '"']
  else if c = '\\' then ['\\', '\\']
  else if c.toNat = 8 then ['\\', 'b']
  else if c.toNat = 9 then ['\\', 't']
  else if c.toNat = 10 then ['\\', 'n']
  else if c.toNat = 12 then ['\\', 'f']
  else if c.toNat = 13 then ['\\', 'r']
  else if c.toNat < 32 then
    ['\\', 'u', '0', '0', hexDigit false (c.toNat / 16), hexDigit false (c.toNat % 16)]
  else [c]

/-- `QuoteJSONString`, one element: an unpaired surrogate is written as the
escape `\uXXXX` (well-formed `JSON.stringify`). -/
def quoteUnit (x : JsUnit) : List Char :=
  match x with
  | .scalar c => quoteChar c
  | .lone u =>
    ['\\', 'u', hexDigit false (u / 4096 % 16), hexDigit false (u / 256 % 16),
      hexDigit false (u / 16 % 16), hexDigit false (u % 16)]

/-- `QuoteJSONString`. -/
def quoteString (s : JsString) : String :=
  "\"" ++ String.mk (s.flatMap quoteUnit) ++ "\""

/-- A number inside `JSON.stringify`. -/
def stringifyNumber (x : JsNumber) : String := if x.finite then x.text else "null"

mutual
/-- `JSON.stringify(data)`. -/
def stringify : Json → String
  | .null => "null"
  | .bool b => if b then "true" else "false"
  | .num x => stringifyNumber x
  | .str s => quoteString s
  | .arr xs => "[" ++ stringifyList xs ++ "]"
  | .obj kvs => "\x7b" ++ stringifyFields kvs ++ "\x7d"
/-- The elements of an array, separated by commas. -/
def stringifyList : JsonList → String
  | .nil => ""
  | .cons x .nil => stringify x
  | .cons x (.cons y ys) => stringify x ++ "," ++ stringifyList (.cons y ys)
/-- The properties of an object, separated by commas. -/
def stringifyFields : JsonFields → String
  | .nil => ""
  | .cons k v .nil => quoteString k ++ ":" ++ stringify v
  | .cons k v (.cons k2 v2 rest) =>
    quoteString k ++ ":" ++ stringify v ++ "," ++ stringifyFields (.cons k2 v2 rest)
end

/-- Indentation of `depth` levels of two spaces. -/
def indentOf (depth : Nat) : String := String.mk (List.replicate (2 * depth) ' ')

mutual
/-- `JSON.stringify(data, null, 2)` at nesting depth `depth`. -/
def stringifyPretty (depth : Nat) : Json → String
  | .null => "null"
  | .bool b => if b then "true" else "false"
  | .num x => stringifyNumber x
  | .str s => quoteString s
  | .arr .nil => "[]"
  | .arr (.cons x xs) =>
    "[\n" ++ indentOf (depth + 1) ++ prettyList depth (.cons x xs) ++ "\n" ++ indentOf depth ++ "]"
  | .obj .nil => "\x7b\x7d"
  | .obj (.cons k v rest) =>
    "\x7b\n" ++ indentOf (depth + 1) ++ prettyFields depth (.cons k v rest) ++ "\n"
      ++ indentOf depth ++ "\x7d"
/-- The elements of an array, one per line. -/
def prettyList (depth : Nat) : JsonList → String
  | .nil => ""
  | .cons x .nil => stringifyPretty (depth + 1) x
  | .cons x (.cons y ys) =>
    stringifyPretty (depth + 1) x ++ ",\n" ++ indentOf (depth + 1) ++ prettyList depth (.cons y ys)
/-- The properties of an object, one per line. -/
def prettyFields (depth : Nat) : JsonFields → String
  | .nil => ""
  | .cons k v .nil => quoteString k ++ ": " ++ stringifyPretty (depth + 1) v
  | .cons k v (.cons k2 v2 rest) =>
    quoteString k ++ ": " ++ stringifyPretty (depth + 1) v ++ ",\n" ++ indentOf (depth + 1)
      ++ prettyFields depth (.cons k2 v2 rest)
end

/-- The message of the `TypeError` thrown when an object cannot be converted
to a string. -/
def typeErrorMessage : String := "Cannot convert object to primitive value"

/-- String conversion of an object: a parsed object with an own property
`toString` (never callable, being JSON) has no usable conversion and the
conversion throws `TypeError`; any other object gives `[object Object]`. -/
def objectToString (kvs : JsonFields) : Except String JsString :=
  match kvs.lookup "toString" with
  | some _ => .error typeErrorMessage
  | none => .ok (js "[object Object]")

mutual
/-- String conversion `ToString(v)`, as applied by a template literal and by
`encodeURIComponent`; `Except.error` carries the message of the exception. -/
def jsToString : Json → Except String JsString
  | .null => .ok (js "null")
  | .bool b => .ok (js (if b then "true" else "false"))
  | .num x => .ok (js x.text)
  | .str s => .ok s
  | .arr xs => joinElements xs
  | .obj kvs => objectToString kvs
/-- `Array.prototype.join(",")`, elements converted from left to right. -/
def joinElements : JsonList → Except String JsString
  | .nil => .ok []
  | .cons x .nil => elementString x
  | .cons x (.cons y ys) =>
    match elementString x with
    | .error message => .error message
    | .ok first =>
      match joinElements (.cons y ys) with
      | .error message => .error message
      | .ok rest => .ok (first ++ js "," ++ rest)
/-- One element inside `join`: `null` gives the empty string. -/
def elementString : Json → Except String JsString
  | .null => .ok []
  | .bool b => .ok (js (if b then "true" else "false"))
  | .num x => .ok (js x.text)
  | .str s => .ok s
  | .arr xs => joinElements xs
  | .obj kvs => objectToString kvs
end

/-! ## URI component coding -/

/-- The characters `encodeURIComponent` leaves alone: letters, digits and
`- _ . ! ~ * ' ( )`. -/
def uriUnreserved (c : Char) : Bool :=
  c.isAlphanum || [45, 95, 46, 33, 126, 42, 39, 40, 41].contains c.toNat

/-- UTF-8 bytes of a code point. -/
def utf8Bytes (n : Nat) : List Nat :=
  if n < 128 then [n]
  else if n < 2048 then [192 + n / 64, 128 + n % 64]
  else if n < 65536 then [224 + n / 4096, 128 + n / 64 % 64, 128 + n % 64]
  else [240 + n / 262144, 128 + n / 4096 % 64, 128 + n / 64 % 64, 128 + n % 64]

/-- The escape `%XX` of one byte, upper-case. -/
def percentByte (b : Nat) : List Char := ['%', hexDigit true (b / 16), hexDigit true (b % 16)]

/-- Percent-encoding of a string without unpaired surrogate: every character
outside the unreserved set becomes the escapes of its UTF-8 bytes. -/
def percentEncode (s : String) : String :=
  String.mk (s.data.flatMap fun c =>
    if uriUnreserved c then [c] else (utf8Bytes c.toNat).flatMap percentByte)

/-- `encodeURIComponent(s)`; throws `URIError` (message `URI malformed`) when
`s` holds an unpaired surrogate. -/
def encodeURIComponent (s : JsString) : Except String String :=
  match wellFormed s with
  | some cs => .ok (percentEncode (String.mk cs))
  | none => .error "URI malformed"

/-- Value of a hexadecimal digit. -/
def hexVal (c : Char) : Option Nat :=
  if 48 ≤ c.toNat ∧ c.toNat ≤ 57 then some (c.toNat - 48)
  else if 97 ≤ c.toNat ∧ c.toNat ≤ 102 then some (c.toNat - 87)
  else if 65 ≤ c.toNat ∧ c.toNat ≤ 70 then some (c.toNat - 55)
  else none

/-- A character taken literally, or the byte of an escape `%XX`. -/
inductive UriToken where
  | lit (c : Char)
  | byte (b : Nat)
  deriving DecidableEq

/-- Splits the input into literal characters and escapes; `none` when a `%`
is not followed by two hexadecimal digits. -/
def uriTokens : List Char → Option (List UriToken)
  | [] => some []
  | c :: rest =>
    if c = '%' then
      match rest with
      | a :: b :: rest2 =>
        match hexVal a, hexVal b, uriTokens rest2 with
        | some x, some y, some ts => some (.byte (16 * x + y) :: ts)
        | _, _, _ => none
      | _ => none
    else (uriTokens rest).map (fun ts => .lit c :: ts)

/-- A UTF-8 continuation byte. -/
def isContinuation (b : Nat) : Bool := 128 ≤ b && b < 192

/-- Reads the escapes as UTF-8; `none` when they are not a valid encoding of
a code point. -/
def decodeTokens : List UriToken → Option (List Char)
  | [] => some []
  | .lit c :: ts => (decodeTokens ts).map (fun cs => c :: cs)
  | .byte b0 :: ts =>
    if b0 < 128 then (decodeTokens ts).map (fun cs => Char.ofNat b0 :: cs)
    else if b0 < 192 then none
    else if b0 < 224 then
      match ts with
      | .byte b1 :: ts2 =>
        let n := (b0 - 192) * 64 + (b1 - 128)
        if isContinuation b1 && 128 ≤ n then
          (decodeTokens ts2).map (fun cs => Char.ofNat n :: cs)
        else none
      | _ => none
    else if b0 < 240 then
      match ts with
      | .byte b1 :: .byte b2 :: ts3 =>
        let n := (b0 - 224) * 4096 + (b1 - 128) * 64 + (b2 - 128)
        if isContinuation b1 && isContinuation b2 && 2048 ≤ n && !(55296 ≤ n && n < 57344) then
          (decodeTokens ts3).map (fun cs => Char.ofNat n :: cs)
        else none
      | _ => none
    else if b0 < 248 then
      match ts with
      | .byte b1 :: .byte b2 :: .byte b3 :: ts4 =>
        let n := (b0 - 240) * 262144 + (b1 - 128) * 4096 + (b2 - 128) * 64 + (b3 - 128)
        if isContinuation b1 && isContinuation b2 && isContinuation b3
            && 65536 ≤ n && n < 1114112 then
          (decodeTokens ts4).map (fun cs => Char.ofNat n :: cs)
        else none
      | _ => none
    else none

/-- `decodeURIComponent(s)`; `none` when it throws `URIError`. -/
def decodeURIComponent (s : String) : Option String :=
  match uriTokens s.data with
  | some ts => (decodeTokens ts).map String.mk
  | none => none


/-! ## Result cache -/

/-- The `type` field of a cached object. The route writes `'html'` and
`'json'` only; `other` stands for any other value, which the lookup passes over. -/
inductive CachedType where
  | html
  | json
  | other
  deriving DecidableEq

/-- The object stored under a cache key: `{ type, payload }`. -/
structure CacheValue where
  type : CachedType
  payload : String
  deriving DecidableEq

/-- A stored value with the time (milliseconds) at which it expires. -/
structure CacheSlot where
  value : CacheValue
  expires : Nat
  deriving DecidableEq

/-- Modelled from the spec: the store behind `new NodeCache` with `stdTTL: 300`
is the node-cache package, which is not under src/. Spec 4.2: `get` returns
absent for missing or TTL-expired entries, `put` overwrites any existing entry
for the same key and resets its TTL; one fixed TTL of 300 seconds. -/
abbrev Cache := List (String × CacheSlot)

/-- The fixed time to live, `stdTTL: 300` seconds (app.js:31), in milliseconds. -/
def ttlMs : Nat := 300 * 1000

/-- Modelled from the spec: `cache.get(key)` at time `now`; absent for a
missing or an expired entry. Reading leaves the store as it is. -/
def Cache.get (c : Cache) (now : Nat) (key : String) : Option CacheValue :=
  match c.lookup key with
  | some slot => if slot.expires < now then none else some slot.value
  | none => none

/-- Modelled from the spec: `cache.set(key, value)` at time `now`; replaces an
entry under the same key and starts a new TTL. -/
def Cache.set (c : Cache) (now : Nat) (key : String) (v : CacheValue) : Cache :=
  (key, { value := v, expires := now + ttlMs }) :: c.filter (fun p => p.1 != key)

/-- Modelled from the spec: `cache.keys()`, the read-only listing shown by the dashboard. -/
def Cache.keys (c : Cache) : List String := c.map (fun p => p.1)

/-! ## Upstream capabilities -/

/-- The upstream answer to the streaming GET: its headers and its byte source. -/
structure StreamResponse where
  headers : Headers
  data : List Nat
  deriving DecidableEq

/-- What the network and the headless browser answer. An `Except.error`
carries the message of the exception thrown. -/
structure Upstream where
  /-- The probe `axios.request` with method `head`: the response headers, or
  `none` when it throws (refused method, non-2xx, timeout). -/
  head : String → Headers → Option Headers
  /-- The browser: navigate with the given extra headers and serialise the DOM. -/
  page : String → Headers → Except String String
  /-- The buffered `axios.get`; the result is `apiResp.data`. -/
  get : String → Headers → Except String Json
  /-- The streaming `axios.get` with `responseType: 'stream'`. -/
  getStream : String → Headers → Except String StreamResponse

/-- Header names the renderer forwards (puppeteerHandler.js:39). -/
def renderHeaderNames : List String := ["authorization", "cookie", "accept-language", "referer"]

/-- `renderWithPuppeteer(url, extraHeaders)` (proxy/puppeteerHandler.js:23-68):
the page is loaded with the safe subset of `extraHeaders` and its content returned. -/
def renderWithPuppeteer (up : Upstream) (url : String) (extraHeaders : Headers) :
    Except String String :=
  up.page url (renderHeaderNames.foldl (copyIfSet extraHeaders) [])

/-! ## The `/proxy` route -/

/-- The body handed to the client: a string sent at once, or bytes piped from upstream. -/
inductive Body where
  | text (s : String)
  | piped (bytes : List Nat)
  deriving DecidableEq

/-- The response: status, the headers the route sets itself, and the body. -/
structure Response where
  status : Nat
  headers : Headers
  body : Body
  deriving DecidableEq

/-- Operations on the cache and on upstream, in the order performed. -/
inductive Effect where
  | cacheGet (key : String)
  | cacheSet (key : String)
  | probe (url : String)
  | render (url : String)
  | fetch (url : String)
  | stream (url : String)
  deriving DecidableEq

/-- The request as the route reads it: `req.query.url` (`none` when missing)
and `req.headers`. -/
structure Request where
  queryUrl : Option String
  headers : Headers
  deriving DecidableEq

/-- The two clock readings of one request: at the cache lookup and at the
cache write that follows the upstream work. -/
structure Clock where
  lookup : Nat
  write : Nat
  deriving DecidableEq

/-- The result of handling one request. -/
structure Outcome where
  response : Response
  cache : Cache
  trace : List Effect
  deriving DecidableEq

/-- String conversion of a value that may be `undefined`. -/
def jsValToString : JsVal → Except String JsString
  | none => .ok (js "undefined")
  | some v => jsToString v

/-- The text of the player page (template literal, app.js:166-182) with its
three substitutions filled in: the link as shown, the encoded link, and the
pretty-printed payload. -/
def playerTemplate (shown encoded raw : String) : String :=
  "\n          <!doctype html>\n          <html>\n"
  ++ "            <head><meta charset=\"utf-8\"><title>ProxyVideo</title></head>\n"
  ++ "            <body style=\"font-family: sans-serif; padding:20px;\">\n"
  ++ "              <h2>Playing stream</h2>\n"
  ++ "              <p>Source (proxied): " ++ shown ++ "</p>\n"
  ++ "              <video controls autoplay style=\"width:100%;max-width:1000px;\">\n"
  ++ "                <source src=\"" ++ "/proxy?url="
  ++ encoded ++ "\" />\n"
  ++ "                Your browser does not support the video tag.\n"
  ++ "              </video>\n"
  ++ "              <hr />\n"
  ++ "              <h3>Raw JSON</h3>\n"
  ++ "              <pre>" ++ raw ++ "</pre>\n"
  ++ "            </body>\n"
  ++ "          </html>\n"
  ++ "        "

/-- The player page of the JSON branch (app.js:165-182), substitutions
evaluated in order: the string conversion of the link may throw `TypeError`,
`encodeURIComponent` may throw `URIError`; `Except.error` carries the message. -/
def playerPage (streamingLink : JsVal) (data : Json) : Except String String :=
  match jsValToString streamingLink with
  | .error message => .error message
  | .ok shown =>
    match encodeURIComponent shown with
    | .error message => .error message
    | .ok encoded => .ok (playerTemplate (sentText shown) encoded (stringifyPretty 0 data))

/-- The answer `res.status(500).send(...)` of the `catch` block (app.js:229-232). -/
def serverError (message : String) : Response :=
  { status := 500, headers := [], body := .text ("Internal Server Error: " ++ message) }

/-- The render branch (app.js:141-145). -/
def renderBranch (up : Upstream) (cache : Cache) (clock : Clock) (targetUrl cacheKey : String)
    (safeHeaders : Headers) (before : List Effect) : Outcome :=
  match renderWithPuppeteer up targetUrl safeHeaders with
  | .error message =>
    { response := serverError message, cache := cache, trace := before ++ [.render targetUrl] }
  | .ok html =>
    { response := { status := 200, headers := [("Content-Type", "text/html; charset=utf-8")],
                    body := .text html },
      cache := cache.set clock.write cacheKey { type := .html, payload := html },
      trace := before ++ [.render targetUrl, .cacheSet cacheKey] }

/-- The JSON branch (app.js:150-192). An exception thrown while the player
page is built is caught by the `catch` block (app.js:229-232): status 500 and
no cache write. -/
def jsonBranch (up : Upstream) (cache : Cache) (clock : Clock) (targetUrl cacheKey : String)
    (safeHeaders : Headers) (before : List Effect) : Outcome :=
  match up.get targetUrl safeHeaders with
  | .error message =>
    { response := serverError message, cache := cache, trace := before ++ [.fetch targetUrl] }
  | .ok data =>
    let streamingLink := findStreamingLink data
    if truthy streamingLink then
      match playerPage streamingLink data with
      | .error message =>
        { response := serverError message, cache := cache,
          trace := before ++ [.fetch targetUrl] }
      | .ok html =>
        { response := { status := 200, headers := [("Content-Type", "text/html; charset=utf-8")],
                        body := .text html },
          cache := cache.set clock.write cacheKey { type := .json, payload := stringify data },
          trace := before ++ [.fetch targetUrl, .cacheSet cacheKey] }
    else
      { response := { status := 200,
                      headers := [("Content-Type", "application/json; charset=utf-8")],
                      body := .text (stringify data) },
        cache := cache.set clock.write cacheKey { type := .json, payload := stringify data },
        trace := before ++ [.fetch targetUrl, .cacheSet cacheKey] }

/-- Upstream headers forwarded by the stream branch, with the names they are
set under (app.js:211-215). -/
def forwardedHeaders : List (String × String) :=
  [("content-type", "Content-Type"), ("content-length", "Content-Length"),
   ("accept-ranges", "Accept-Ranges"), ("content-range", "Content-Range"),
   ("cache-control", "Cache-Control")]

/-- The stream branch (app.js:196-228). -/
def streamBranch (up : Upstream) (cache : Cache) (req : Request) (targetUrl : String)
    (safeHeaders : Headers) (before : List Effect) : Outcome :=
  let safeHeaders := copyIfSet req.headers safeHeaders "range"
  match up.getStream targetUrl safeHeaders with
  | .error message =>
    { response := serverError message, cache := cache, trace := before ++ [.stream targetUrl] }
  | .ok streamResp =>
    { response := { status := 200,
                    headers := forwardedHeaders.foldl
                      (fun hs p => match streamResp.headers.lookup p.1 with
                        | some v => if v ≠ "" then setProp hs p.2 v else hs
                        | none => hs) [],
                    body := .piped streamResp.data },
      cache := cache,
      trace := before ++ [.stream targetUrl] }

/-- The answer to a cache hit (app.js:94-100): the payload of an entry of
type `'html'` or `'json'`; anything else falls through to the upstream work. -/
def cachedReply (cached : Option CacheValue) : Option String :=
  match cached with
  | some v =>
    match v.type with
    | .html => some v.payload
    | .json => some v.payload
    | .other => none
  | none => none

/-- The 400 answers of the route (app.js:78 and app.js:88). -/
def badRequest (message : String) : Response :=
  { status := 400, headers := [], body := .text message }

/-- The checks that open the route (app.js:76-89): a missing or empty `url`
parameter, a parameter that `decodeURIComponent` rejects, and a decoded value
that `new URL` rejects are answered with status 400; otherwise the decoded
target URL is returned. `urlParses u` tells whether `new URL(u)` succeeds,
that is whether `u` parses as an absolute URL. -/
def validateTarget (urlParses : String → Bool) (req : Request) : Except Response String :=
  match req.queryUrl with
  | none => .error (badRequest "Missing url query parameter")
  | some q =>
    if q = "" then .error (badRequest "Missing url query parameter")
    else
      match decodeURIComponent q with
      | none => .error (badRequest "Invalid URL: URI malformed")
      | some targetUrl =>
        if urlParses targetUrl = true then .ok targetUrl
        else .error (badRequest "Invalid URL: Invalid URL")

/-- The `/proxy` handler (app.js:75-233). -/
def proxyRoute (urlParses : String → Bool) (up : Upstream) (cache : Cache) (clock : Clock)
    (req : Request) : Outcome :=
  match validateTarget urlParses req with
  | .error response => { response := response, cache := cache, trace := [] }
  | .ok targetUrl =>
    let cacheKey := "proxy:" ++ targetUrl
    match cachedReply (cache.get clock.lookup cacheKey) with
    | some payload =>
      { response := { status := 200, headers := [], body := .text payload },
        cache := cache, trace := [.cacheGet cacheKey] }
    | none =>
      let safeHeaders := buildSafeHeaders req.headers []
      let headRespHeaders := up.head targetUrl safeHeaders
      let preType := contentTypeFrom headRespHeaders targetUrl
      let before := [Effect.cacheGet cacheKey, Effect.probe targetUrl]
      match selectStrategy preType targetUrl with
      | .render => renderBranch up cache clock targetUrl cacheKey safeHeaders before
      | .structuredFetch => jsonBranch up cache clock targetUrl cacheKey safeHeaders before
      | .stream => streamBranch up cache req targetUrl safeHeaders before

/-- Requests handled one after another, each with its own upstream answers
and clock readings; the cache left by one is the cache found by the next. -/
def serveAll (urlParses : String → Bool) (cache : Cache) :
    List (Upstream × Clock × Request) → Cache
  | [] => cache
  | (up, clock, req) :: rest =>
    serveAll urlParses (proxyRoute urlParses up cache clock req).cache rest

/-! ## Test doubles -/

/-- A stand-in for `new URL`: accepts what starts with `http://` or `https://`. -/
def httpUrlParses (u : String) : Bool :=
  jsStartsWith u "http://" || jsStartsWith u "https://"

/-- An upstream that refuses the HEAD probe, renders every page to a fixed
document, answers every buffered GET with `payload` and every streaming GET
with three bytes of `video/mp4`. -/
def refusingUpstream (payload : Json) : Upstream :=
  { head := fun _ _ => none
    page := fun _ _ => .ok "<html><body>rendered</body></html>"
    get := fun _ _ => .ok payload
    getStream := fun _ _ => .ok { headers := [("content-type", "video/mp4")], data := [0, 1, 2] } }

/-- An upstream like `refusingUpstream` whose HEAD probe answers with the given headers. -/
def probedUpstream (probe : Headers) (payload : Json) : Upstream :=
  { head := fun _ _ => some probe
    page := fun _ _ => .ok "<html><body>rendered</body></html>"
    get := fun _ _ => .ok payload
    getStream := fun _ _ => .ok { headers := [("content-type", "video/mp4")], data := [0, 1, 2] } }

/-- The payload of the end-to-end scenario: `{"streamingLink":"https://cdn.example/video.mp4"}`. -/
def linkPayload : Json :=
  .obj (.cons (js "streamingLink") (.str (js "https://cdn.example/video.mp4")) .nil)

/-- A payload without a streaming reference: `{"ok":true}`. -/
def plainPayload : Json := .obj (.cons (js "ok") (.bool true) .nil)

/-- The payload `{"streamingLink":"\ud800"}`: the link is a string of one
unpaired surrogate. -/
def surrogatePayload : Json :=
  .obj (.cons (js "streamingLink") (.str [JsUnit.lone 55296]) .nil)

/-! ## Lemmas on the string primitives -/

theorem includesChars_iff_occurs (s pat : List Char) :
    includesChars s pat = true ↔ pat <:+: s := by
  induction s with
  | nil =>
    simp [includesChars, List.isPrefixOf_iff_prefix]
  | cons c cs ih =>
    simp only [includesChars, Bool.or_eq_true, List.isPrefixOf_iff_prefix, ih,
      List.infix_cons_iff]

theorem includesChars_append_right (a b pat : List Char) (h : includesChars a pat = true) :
    includesChars (a ++ b) pat = true := by
  rw [includesChars_iff_occurs] at *
  exact List.IsInfix.trans h (List.infix_append' [] a b)

theorem includesChars_append_left (a b pat : List Char) (h : includesChars b pat = true) :
    includesChars (a ++ b) pat = true := by
  rw [includesChars_iff_occurs] at *
  exact List.IsInfix.trans h (List.suffix_append a b).isInfix

/-! ## Lemmas on the regular expressions -/

theorem Rx.test_append_of_run (r : Rx) (p s : List Char) (h : r.run s ≠ []) :
    r.test (p ++ s) = true := by
  induction p with
  | nil =>
    cases s with
    | nil => simpa [Rx.test] using h
    | cons c cs => simp [Rx.test, h]
  | cons c cs ih => simp [Rx.test, ih]

theorem Rx.run_lit (w e rest : List Char)
    (h : e.map Char.toLower = w.map Char.toLower) :
    (Rx.lit w).run (e ++ rest) = [rest] := by
  induction w generalizing e with
  | nil =>
    cases e with
    | nil => simp [Rx.lit, Rx.run]
    | cons x xs => simp at h
  | cons c cs ih =>
    cases e with
    | nil => simp at h
    | cons x xs =>
      simp only [List.map_cons, List.cons.injEq] at h
      simp [Rx.lit, Rx.run, h.1, ih xs h.2]

theorem Rx.run_alt (a b : Rx) (xs : List Char) :
    (Rx.alt a b).run xs = a.run xs ++ b.run xs := rfl

theorem Rx.run_seq (a b : Rx) (xs : List Char) :
    (Rx.seq a b).run xs = (a.run xs).flatMap (fun r => b.run r) := rfl

theorem videoExtRx_run (e rest : List Char) (he : e.map Char.toLower ∈ videoExtensions)
    (hrest : rest = [] ∨ ∃ q, rest = '?' :: q) :
    videoExtRx.run ('.' :: (e ++ rest)) ≠ [] := by
  have halt : rest ∈ (Rx.alt (.lit "mp4".data) (.alt (.lit "mkv".data)
      (.alt (.lit "webm".data) (.alt (.lit "mov".data) (.lit "avi".data))))).run (e ++ rest) := by
    simp only [videoExtensions, List.mem_cons, List.mem_singleton, List.not_mem_nil,
      or_false] at he
    simp only [Rx.run_alt, List.mem_append]
    rcases he with h | h | h | h | h
    · exact Or.inl (by rw [Rx.run_lit _ _ _ (by rw [h]; decide)]; simp)
    · exact Or.inr (Or.inl (by rw [Rx.run_lit _ _ _ (by rw [h]; decide)]; simp))
    · exact Or.inr (Or.inr (Or.inl (by rw [Rx.run_lit _ _ _ (by rw [h]; decide)]; simp)))
    · exact Or.inr (Or.inr (Or.inr (Or.inl
        (by rw [Rx.run_lit _ _ _ (by rw [h]; decide)]; simp))))
    · exact Or.inr (Or.inr (Or.inr (Or.inr
        (by rw [Rx.run_lit _ _ _ (by rw [h]; decide)]; simp))))
  have htail : (Rx.alt (.chr '?') .eos).run rest ≠ [] := by
    rcases hrest with h | ⟨q, h⟩ <;> subst h <;> simp [Rx.run]
  obtain ⟨t, ht⟩ := List.exists_mem_of_ne_nil _ htail
  have hdot : (Rx.chr '.').run ('.' :: (e ++ rest)) = [e ++ rest] := by simp [Rx.run]
  have hmem : t ∈ videoExtRx.run ('.' :: (e ++ rest)) := by
    rw [videoExtRx, Rx.run_seq, hdot, List.flatMap_singleton, Rx.run_seq, List.mem_flatMap]
    exact ⟨rest, halt, ht⟩
  exact List.ne_nil_of_mem hmem

theorem apiRx_test_of_contains (a b : List Char) :
    apiRx.test (a ++ ("/api/".data ++ b)) = true := by
  apply Rx.test_append_of_run
  rw [apiRx, Rx.run_lit _ _ _ rfl]
  simp

theorem jsonExtRx_test_of_suffix (a : List Char) :
    jsonExtRx.test (a ++ ".json".data) = true := by
  apply Rx.test_append_of_run
  have h := Rx.run_lit ".json".data ".json".data [] rfl
  rw [List.append_nil] at h
  simp [jsonExtRx, Rx.run, h]

theorem jsonExtRx_test_of_query (a b : List Char) :
    jsonExtRx.test (a ++ (".json".data ++ '?' :: b)) = true := by
  apply Rx.test_append_of_run
  have h := Rx.run_lit ".json".data ".json".data ('?' :: b) rfl
  simp [jsonExtRx, Rx.run, h]

/-! ## Lemmas on header objects -/

theorem setProp_fresh (o : Headers) (k v : String) (h : ∀ p ∈ o, p.1 ≠ k) :
    setProp o k v = o ++ [(k, v)] := by
  have hany : o.any (fun p => p.1 == k) = false := by
    rw [List.any_eq_false]
    intro p hp
    simpa using h p hp
  simp [setProp, hany]

theorem copyIfSet_fresh (h safe : Headers) (k : String) (hk : ∀ p ∈ safe, p.1 ≠ k) :
    copyIfSet h safe k = safe ++ (safeEntry h k).toList := by
  unfold copyIfSet safeEntry
  cases h.lookup k with
  | none => simp
  | some v =>
    by_cases hv : v = ""
    · simp [hv]
    · simp [hv, setProp_fresh safe k v hk]

theorem safeEntry_fst (h : Headers) (k : String) (p : String × String)
    (hp : safeEntry h k = some p) : p.1 = k := by
  unfold safeEntry at hp
  cases hl : h.lookup k with
  | none => simp [hl] at hp
  | some v =>
    by_cases hv : v = ""
    · simp [hl, hv] at hp
    · simp [hl, hv] at hp
      rw [← hp]

theorem foldl_copyIfSet (h : Headers) (ks : List String) (acc : Headers)
    (hnd : ks.Nodup) (hdis : ∀ k ∈ ks, ∀ p ∈ acc, p.1 ≠ k) :
    ks.foldl (copyIfSet h) acc = acc ++ ks.filterMap (safeEntry h) := by
  induction ks generalizing acc with
  | nil => simp
  | cons k ks ih =>
    rw [List.nodup_cons] at hnd
    rw [List.foldl_cons, copyIfSet_fresh h acc k (hdis k (List.mem_cons_self k ks))]
    rw [ih _ hnd.2]
    · cases hs : safeEntry h k <;> simp [List.filterMap_cons, hs]
    · intro k2 hk2 p hp
      rw [List.mem_append] at hp
      rcases hp with hp | hp
      · exact hdis k2 (List.mem_cons_of_mem k hk2) p hp
      · cases hs : safeEntry h k with
        | none => simp [hs] at hp
        | some e =>
          simp [hs] at hp
          subst hp
          rw [safeEntry_fst h k _ hs]
          intro hkk
          exact hnd.1 (hkk ▸ hk2)

theorem objectAssign_safeEntries (h : Headers) (ks : List String) (t : Headers)
    (hnd : ks.Nodup) (hdis : ∀ k ∈ ks, ∀ p ∈ t, p.1 ≠ k) :
    objectAssign t (ks.filterMap (safeEntry h)) = t ++ ks.filterMap (safeEntry h) := by
  induction ks generalizing t with
  | nil => simp [objectAssign]
  | cons k ks ih =>
    rw [List.nodup_cons] at hnd
    cases hs : safeEntry h k with
    | none =>
      simp only [List.filterMap_cons, hs]
      exact ih t hnd.2 (fun k2 hk2 => hdis k2 (List.mem_cons_of_mem k hk2))
    | some e =>
      have he : e.1 = k := safeEntry_fst h k e hs
      simp only [List.filterMap_cons, hs]
      have hstep : objectAssign t (e :: ks.filterMap (safeEntry h))
          = objectAssign (setProp t e.1 e.2) (ks.filterMap (safeEntry h)) := by
        simp [objectAssign]
      rw [hstep, setProp_fresh t e.1 e.2 (by rw [he]; exact hdis k (List.mem_cons_self k ks))]
      rw [ih _ hnd.2]
      · simp
      · intro k2 hk2 p hp
        rw [List.mem_append] at hp
        rcases hp with hp | hp
        · exact hdis k2 (List.mem_cons_of_mem k hk2) p hp
        · simp at hp
          subst hp
          rw [he]
          intro hkk
          exact hnd.1 (hkk ▸ hk2)

theorem buildSafeHeaders_eq (h : Headers) :
    buildSafeHeaders h [] = whitelist.filterMap (safeEntry h) := by
  have hnd : whitelist.Nodup := by decide
  unfold buildSafeHeaders
  simp only
  rw [foldl_copyIfSet h whitelist [] hnd (by simp)]
  simp only [List.nil_append]
  rw [objectAssign_safeEntries h whitelist [] hnd (by simp)]
  simp [objectAssign]

theorem lookup_safeEntries (h : Headers) (ks : List String) (k v : String)
    (hk : k ∈ ks) (hv : safeEntry h k = some (k, v)) :
    (ks.filterMap (safeEntry h)).lookup k = some v := by
  induction ks with
  | nil => simp at hk
  | cons k0 ks ih =>
    by_cases hkk : k = k0
    · subst hkk
      simp [List.filterMap_cons, hv, List.lookup_cons]
    · have hk2 : k ∈ ks := by
        rcases List.mem_cons.mp hk with h1 | h1
        · exact absurd h1 hkk
        · exact h1
      cases hs : safeEntry h k0 with
      | none => simpa [List.filterMap_cons, hs] using ih hk2
      | some e =>
        have he : e.1 = k0 := safeEntry_fst h k0 e hs
        have hne : (k == e.1) = false := by
          rw [he]
          simpa using hkk
        simp only [List.filterMap_cons, hs]
        rw [show e = (e.1, e.2) from rfl, List.lookup_cons, hne]
        exact ih hk2

/-! ## Header sanitisation -/

/-- C1: `buildSafeHeaders(h)`, called with no extra argument, holds no key
outside the allow-list, and holds every allow-listed key that `h` carries with
a non-empty value, with exactly that value; for
`h = {authorization: "x", x-forwarded-for: "1.2.3.4"}` the result holds
`authorization` and not `x-forwarded-for`. -/
theorem buildSafeHeaders_allow_list (h : Headers) :
    (∀ k v, (k, v) ∈ buildSafeHeaders h [] → k ∈ whitelist)
    ∧ (∀ k v, k ∈ whitelist → h.lookup k = some v → v ≠ "" →
        (buildSafeHeaders h []).lookup k = some v)
    ∧ (buildSafeHeaders [("authorization", "x"), ("x-forwarded-for", "1.2.3.4")] []).lookup
        "authorization" = some "x"
    ∧ (buildSafeHeaders [("authorization", "x"), ("x-forwarded-for", "1.2.3.4")] []).lookup
        "x-forwarded-for" = none := by
  refine ⟨?_, ?_, by decide, by decide⟩
  · intro k v hmem
    rw [buildSafeHeaders_eq, List.mem_filterMap] at hmem
    obtain ⟨k0, hk0, hs⟩ := hmem
    have := safeEntry_fst h k0 _ hs
    simp only at this
    rw [this]
    exact hk0
  · intro k v hk hl hv
    rw [buildSafeHeaders_eq]
    apply lookup_safeEntries h whitelist k v hk
    simp [safeEntry, hl, hv]

/-! ## Classification -/

/-- C7: with a probe result whose content-type is `application/json`, alone or
followed by parameters that do not contain `text/html`, `contentTypeFrom`
yields JSON whatever the URL is, in particular for a URL ending in `.mp4`. -/
theorem contentTypeFrom_probe_json (hs : Headers) (params url : String)
    (hct : hs.lookup "content-type" = some ("application/json" ++ params))
    (hparams : jsIncludes params "text/html" = false) :
    contentTypeFrom (some hs) url = some ContentType.json := by
  have hno : jsIncludes ("application/json" ++ params) "text/html" = false := by
    simp only [jsIncludes, String.data_append] at *
    have hd : "application/json".data = ['a', 'p', 'p', 'l', 'i', 'c', 'a', 't', 'i', 'o', 'n',
      '/', 'j', 's', 'o', 'n'] := by decide
    have hp : "text/html".data = ['t', 'e', 'x', 't', '/', 'h', 't', 'm', 'l'] := by decide
    rw [hd, hp] at *
    simp [includesChars, List.isPrefixOf, hparams]
  have hyes : jsIncludes ("application/json" ++ params) "application/json" = true := by
    simp only [jsIncludes, String.data_append]
    exact includesChars_append_right _ _ _ (by decide)
  simp [contentTypeFrom, hct, hno, hyes]

/-- Witness for C7: `application/json; charset=utf-8` and a URL ending in `.mp4`. -/
theorem contentTypeFrom_probe_json_witness :
    contentTypeFrom (some [("content-type", "application/json; charset=utf-8")])
      "https://example.com/media/clip.mp4" = some ContentType.json :=
  contentTypeFrom_probe_json [("content-type", "application/json; charset=utf-8")]
    "; charset=utf-8" "https://example.com/media/clip.mp4" (by decide) (by decide)

/-- C8: with no probe result, a URL that ends in one of the extensions `.mp4`,
`.mkv`, `.webm`, `.mov`, `.avi` in any letter case, or has such an extension
directly before a `?`, is classified VIDEO, whatever else the URL contains
(`/api/` and `.json` included). -/
theorem contentTypeFrom_video_extension (p e q : String)
    (he : e.data.map Char.toLower ∈ videoExtensions) :
    contentTypeFrom none (p ++ "." ++ e) = some ContentType.video
    ∧ contentTypeFrom none (p ++ "." ++ e ++ "?" ++ q) = some ContentType.video := by
  have h1 : videoExtRx.test (p ++ "." ++ e).data = true := by
    have := Rx.test_append_of_run videoExtRx p.data _
      (videoExtRx_run e.data [] he (Or.inl rfl))
    simpa [String.data_append] using this
  have h2 : videoExtRx.test (p ++ "." ++ e ++ "?" ++ q).data = true := by
    have := Rx.test_append_of_run videoExtRx p.data _
      (videoExtRx_run e.data ('?' :: q.data) he (Or.inr ⟨q.data, rfl⟩))
    simpa [String.data_append] using this
  constructor
  · simp only [contentTypeFrom, h1, if_true]
  · simp only [contentTypeFrom, h2, if_true]

/-- Witness for C8: an upper-case extension on a URL that also contains `/api/`. -/
theorem contentTypeFrom_video_extension_witness :
    contentTypeFrom none ("https://example.com/api/clip" ++ "." ++ "MP4")
        = some ContentType.video
    ∧ contentTypeFrom none ("https://example.com/api/clip" ++ "." ++ "MP4" ++ "?" ++ "t=1.json")
        = some ContentType.video :=
  contentTypeFrom_video_extension "https://example.com/api/clip" "MP4" "t=1.json" (by decide)

/-- C10, counterexample: the probe answers `text/plain`, which matches none of
the content-type rules, and the URL ends in `.mp4`, which the URL-pattern
rules classify VIDEO; `contentTypeFrom` returns `null`, not VIDEO. -/
theorem contentTypeFrom_unmatched_probe_not_video :
    jsIncludes "text/plain" "text/html" = false
    ∧ jsIncludes "text/plain" "application/json" = false
    ∧ jsIncludes "text/plain" "+json" = false
    ∧ jsStartsWith "text/plain" "video/" = false
    ∧ jsIncludes "text/plain" "octet-stream" = false
    ∧ jsIncludes "text/plain" "mpeg" = false
    ∧ contentTypeFrom none "https://example.com/clip.mp4" = some ContentType.video
    ∧ contentTypeFrom (some [("content-type", "text/plain")]) "https://example.com/clip.mp4"
        = none
    ∧ contentTypeFrom (some [("content-type", "text/plain")]) "https://example.com/clip.mp4"
        ≠ contentTypeFrom none "https://example.com/clip.mp4" := by
  decide

/-- C10, amended: with a probe result whose content-type (the empty string
when the header is missing) matches none of the HTML, JSON and VIDEO
content-type rules, `contentTypeFrom` returns `null` for every URL; the
URL-pattern rules are not consulted. -/
theorem contentTypeFrom_unmatched_probe_none (hs : Headers) (url : String)
    (hhtml : jsIncludes ((hs.lookup "content-type").getD "") "text/html" = false)
    (hjson : jsIncludes ((hs.lookup "content-type").getD "") "application/json" = false)
    (hplus : jsIncludes ((hs.lookup "content-type").getD "") "+json" = false)
    (hvideo : jsStartsWith ((hs.lookup "content-type").getD "") "video/" = false)
    (hoctet : jsIncludes ((hs.lookup "content-type").getD "") "octet-stream" = false)
    (hmpeg : jsIncludes ((hs.lookup "content-type").getD "") "mpeg" = false) :
    contentTypeFrom (some hs) url = none := by
  simp [contentTypeFrom, hhtml, hjson, hplus, hvideo, hoctet, hmpeg]

/-- Witness for C10 amended: no content-type header at all, URL ending in `.mp4`. -/
theorem contentTypeFrom_unmatched_probe_none_witness :
    contentTypeFrom (some [("server", "nginx")]) "https://example.com/clip.mp4" = none :=
  contentTypeFrom_unmatched_probe_none [("server", "nginx")] "https://example.com/clip.mp4"
    (by decide) (by decide) (by decide) (by decide) (by decide) (by decide)

/-! ## Dispatch -/

/-- C9, the code at the failing input: with no probe result the URL
`https://example.com/` matches neither the video rule nor the JSON rule, gets
no category, fails the pattern `/\.(html?|\/$)/i` (which asks for a dot before
the final slash), and is handed to the Stream Strategy, not rendered. -/
theorem trailing_slash_url_is_streamed :
    videoExtRx.test "https://example.com/".data = false
    ∧ apiRx.test "https://example.com/".data = false
    ∧ jsonExtRx.test "https://example.com/".data = false
    ∧ contentTypeFrom none "https://example.com/" = none
    ∧ seemsHtmlRx.test "https://example.com/".data = false
    ∧ selectStrategy (contentTypeFrom none "https://example.com/") "https://example.com/"
        = Strategy.stream
    ∧ (proxyRoute httpUrlParses (refusingUpstream plainPayload) [] { lookup := 0, write := 0 }
        { queryUrl := some "https://example.com/", headers := [] }).trace
        = [Effect.cacheGet "proxy:https://example.com/", Effect.probe "https://example.com/",
           Effect.stream "https://example.com/"] := by
  decide

/-! ## Lemmas on the route -/

theorem proxyRoute_invalid (urlParses : String → Bool) (up : Upstream) (cache : Cache)
    (clock : Clock) (req : Request) (response : Response)
    (h : validateTarget urlParses req = .error response) :
    proxyRoute urlParses up cache clock req
      = { response := response, cache := cache, trace := [] } := by
  simp [proxyRoute, h]

theorem proxyRoute_hit (urlParses : String → Bool) (up : Upstream) (cache : Cache)
    (clock : Clock) (req : Request) (u payload : String)
    (hu : validateTarget urlParses req = .ok u)
    (hhit : cachedReply (cache.get clock.lookup ("proxy:" ++ u)) = some payload) :
    proxyRoute urlParses up cache clock req
      = { response := { status := 200, headers := [], body := .text payload },
          cache := cache, trace := [.cacheGet ("proxy:" ++ u)] } := by
  simp [proxyRoute, hu, hhit]

theorem proxyRoute_miss (urlParses : String → Bool) (up : Upstream) (cache : Cache)
    (clock : Clock) (req : Request) (u : String)
    (hu : validateTarget urlParses req = .ok u)
    (hmiss : cachedReply (cache.get clock.lookup ("proxy:" ++ u)) = none) :
    proxyRoute urlParses up cache clock req
      = match selectStrategy
            (contentTypeFrom (up.head u (buildSafeHeaders req.headers [])) u) u with
        | .render => renderBranch up cache clock u ("proxy:" ++ u)
            (buildSafeHeaders req.headers [])
            [Effect.cacheGet ("proxy:" ++ u), Effect.probe u]
        | .structuredFetch => jsonBranch up cache clock u ("proxy:" ++ u)
            (buildSafeHeaders req.headers [])
            [Effect.cacheGet ("proxy:" ++ u), Effect.probe u]
        | .stream => streamBranch up cache req u (buildSafeHeaders req.headers [])
            [Effect.cacheGet ("proxy:" ++ u), Effect.probe u] := by
  simp [proxyRoute, hu, hmiss]

theorem validateTarget_status (urlParses : String → Bool) (req : Request) (response : Response)
    (h : validateTarget urlParses req = .error response) : response.status = 400 := by
  unfold validateTarget at h
  split at h
  · cases h; rfl
  · split at h
    · cases h; rfl
    · split at h
      · cases h; rfl
      · split at h
        · cases h
        · cases h; rfl

/-! ## URL validation -/

/-- C2: for every `url` query value that is syntactically invalid
(`decodeURIComponent` throws on it, or its decoded form does not parse as an
absolute URL) the handler answers with status 400 and performs no cache read,
no probe, no fetch and no render; the cache is left as it was. -/
theorem invalid_url_rejected_without_effects (urlParses : String → Bool) (up : Upstream)
    (cache : Cache) (clock : Clock) (headers : Headers) (q : String)
    (hbad : decodeURIComponent q = none
      ∨ ∃ u, decodeURIComponent q = some u ∧ urlParses u = false) :
    (proxyRoute urlParses up cache clock { queryUrl := some q, headers := headers }).response.status
        = 400
    ∧ (proxyRoute urlParses up cache clock { queryUrl := some q, headers := headers }).trace = []
    ∧ (proxyRoute urlParses up cache clock { queryUrl := some q, headers := headers }).cache
        = cache := by
  have hv : ∃ response,
      validateTarget urlParses { queryUrl := some q, headers := headers } = .error response := by
    unfold validateTarget
    by_cases hq : q = ""
    · exact ⟨badRequest "Missing url query parameter", by simp [hq]⟩
    · rcases hbad with hd | ⟨u, hd, hp⟩
      · exact ⟨badRequest "Invalid URL: URI malformed", by simp [hq, hd]⟩
      · exact ⟨badRequest "Invalid URL: Invalid URL", by simp [hq, hd, hp]⟩
  obtain ⟨response, hr⟩ := hv
  rw [proxyRoute_invalid urlParses up cache clock _ response hr]
  exact ⟨validateTarget_status urlParses _ response hr, rfl, rfl⟩

/-- Witness for C2: the query value `%E0%A4%A`, on which `decodeURIComponent` throws. -/
theorem invalid_url_rejected_without_effects_witness :
    (proxyRoute httpUrlParses (refusingUpstream plainPayload) [] { lookup := 0, write := 0 }
        { queryUrl := some "%E0%A4%A", headers := [] }).response.status = 400
    ∧ (proxyRoute httpUrlParses (refusingUpstream plainPayload) [] { lookup := 0, write := 0 }
        { queryUrl := some "%E0%A4%A", headers := [] }).trace = []
    ∧ (proxyRoute httpUrlParses (refusingUpstream plainPayload) [] { lookup := 0, write := 0 }
        { queryUrl := some "%E0%A4%A", headers := [] }).cache = [] :=
  invalid_url_rejected_without_effects httpUrlParses (refusingUpstream plainPayload) []
    { lookup := 0, write := 0 } [] "%E0%A4%A" (Or.inl (by decide))

theorem jsonBranch_trace (up : Upstream) (cache : Cache) (clock : Clock) (u key : String)
    (safeHeaders : Headers) (before : List Effect) :
    (jsonBranch up cache clock u key safeHeaders before).trace = before ++ [Effect.fetch u]
    ∨ (jsonBranch up cache clock u key safeHeaders before).trace
        = before ++ [Effect.fetch u, Effect.cacheSet key] := by
  unfold jsonBranch
  cases up.get u safeHeaders with
  | error message => exact Or.inl rfl
  | ok data =>
    by_cases ht : truthy (findStreamingLink data) = true
    · cases hp : playerPage (findStreamingLink data) data with
      | error message => simp [ht, hp]
      | ok html => simp [ht, hp]
    · simp [ht]

theorem jsonPattern_of_shape (a b u : String)
    (hpat : u = a ++ "/api/" ++ b ∨ u = a ++ ".json" ∨ u = a ++ ".json?" ++ b) :
    apiRx.test u.data = true ∨ jsonExtRx.test u.data = true := by
  rcases hpat with h | h | h
  · left
    subst h
    have := apiRx_test_of_contains a.data b.data
    simpa [String.data_append] using this
  · right
    subst h
    have := jsonExtRx_test_of_suffix a.data
    simpa [String.data_append] using this
  · right
    subst h
    have := jsonExtRx_test_of_query a.data b.data
    simpa [String.data_append] using this

/-- C6: for every target URL that contains `/api/`, or has `.json` at its end
or before a `?`, when classification (which takes place on a cache miss)
yields VIDEO, the dispatch selects the Structured-Fetch Strategy: the request
performs the buffered fetch and neither the stream nor the render operation. -/
theorem video_with_json_pattern_uses_structured_fetch (urlParses : String → Bool)
    (up : Upstream) (cache : Cache) (clock : Clock) (req : Request) (a b u : String)
    (hu : validateTarget urlParses req = .ok u)
    (hmiss : cachedReply (cache.get clock.lookup ("proxy:" ++ u)) = none)
    (hvideo : contentTypeFrom (up.head u (buildSafeHeaders req.headers [])) u
      = some ContentType.video)
    (hpat : u = a ++ "/api/" ++ b ∨ u = a ++ ".json" ∨ u = a ++ ".json?" ++ b) :
    selectStrategy (some ContentType.video) u = Strategy.structuredFetch
    ∧ Effect.fetch u ∈ (proxyRoute urlParses up cache clock req).trace
    ∧ Effect.stream u ∉ (proxyRoute urlParses up cache clock req).trace
    ∧ Effect.render u ∉ (proxyRoute urlParses up cache clock req).trace := by
  have hsel : selectStrategy (some ContentType.video) u = Strategy.structuredFetch := by
    rcases jsonPattern_of_shape a b u hpat with h | h <;> simp [selectStrategy, h]
  refine ⟨hsel, ?_⟩
  rw [proxyRoute_miss urlParses up cache clock req u hu hmiss, hvideo, hsel]
  simp only
  rcases jsonBranch_trace up cache clock u ("proxy:" ++ u) (buildSafeHeaders req.headers [])
    [Effect.cacheGet ("proxy:" ++ u), Effect.probe u] with h | h <;> rw [h] <;> simp

/-- Witness for C6: `https://example.com/api/clip.mp4` with the probe refused
is classified VIDEO by its extension and fetched as structured data. -/
theorem video_with_json_pattern_uses_structured_fetch_witness :
    selectStrategy (some ContentType.video) "https://example.com/api/clip.mp4"
      = Strategy.structuredFetch
    ∧ Effect.fetch "https://example.com/api/clip.mp4"
        ∈ (proxyRoute httpUrlParses (refusingUpstream plainPayload) []
            { lookup := 0, write := 0 }
            { queryUrl := some "https://example.com/api/clip.mp4", headers := [] }).trace
    ∧ Effect.stream "https://example.com/api/clip.mp4"
        ∉ (proxyRoute httpUrlParses (refusingUpstream plainPayload) []
            { lookup := 0, write := 0 }
            { queryUrl := some "https://example.com/api/clip.mp4", headers := [] }).trace
    ∧ Effect.render "https://example.com/api/clip.mp4"
        ∉ (proxyRoute httpUrlParses (refusingUpstream plainPayload) []
            { lookup := 0, write := 0 }
            { queryUrl := some "https://example.com/api/clip.mp4", headers := [] }).trace :=
  video_with_json_pattern_uses_structured_fetch httpUrlParses (refusingUpstream plainPayload) []
    { lookup := 0, write := 0 }
    { queryUrl := some "https://example.com/api/clip.mp4", headers := [] }
    "https://example.com" "clip.mp4" "https://example.com/api/clip.mp4"
    (by rfl) (by decide) (by decide) (Or.inl (by decide))

/-! ## Lemmas on the cache and on the JSON branch -/

theorem Cache.get_set_same (c : Cache) (w t : Nat) (key : String) (v : CacheValue)
    (ht : t ≤ w + ttlMs) : (c.set w key v).get t key = some v := by
  simp [Cache.get, Cache.set, List.lookup_cons, Nat.not_lt.mpr ht]

theorem jsIncludes_append_right (x t pat : String) (h : jsIncludes x pat = true) :
    jsIncludes (x ++ t) pat = true := by
  simp only [jsIncludes, String.data_append] at *
  exact includesChars_append_right _ _ _ h

theorem jsIncludes_tail (x y z : String) : jsIncludes (x ++ y ++ z) (y ++ z) = true := by
  simp only [jsIncludes, String.data_append, includesChars_iff_occurs]
  exact ⟨x.data, [], by simp⟩

theorem playerTemplate_includes_source (shown encoded raw : String) :
    jsIncludes (playerTemplate shown encoded raw) ("/proxy?url=" ++ encoded) = true := by
  unfold playerTemplate
  iterate 11 apply jsIncludes_append_right
  exact jsIncludes_tail _ _ _

theorem playerTemplate_head (shown encoded raw : String) :
    (playerTemplate shown encoded raw).data.head? = some '\n' := by
  have hlit : ∃ tl, "\n          <!doctype html>\n          <html>\n".data = '\n' :: tl :=
    ⟨_, rfl⟩
  obtain ⟨tl, htl⟩ := hlit
  simp only [playerTemplate, String.data_append, htl, List.cons_append, List.head?_cons]

theorem stringify_obj_head (kvs : JsonFields) :
    (stringify (.obj kvs)).data.head? = some '\x7b' := by
  simp [stringify, String.data_append]

theorem wellFormed_map_scalar (cs : List Char) :
    wellFormed (cs.map JsUnit.scalar) = some cs := by
  induction cs with
  | nil => rfl
  | cons c cs ih => simp [wellFormed, ih]

theorem encodeURIComponent_js (s : String) :
    encodeURIComponent (js s) = .ok (percentEncode s) := by
  simp [encodeURIComponent, js, wellFormed_map_scalar]

theorem sentText_js (s : String) : sentText (js s) = s := by
  simp [sentText, js, List.map_map, Function.comp_def]

theorem playerPage_string (s : String) (d : Json) :
    playerPage (some (.str (js s))) d
      = .ok (playerTemplate s (percentEncode s) (stringifyPretty 0 d)) := by
  simp [playerPage, jsValToString, jsToString, encodeURIComponent_js, sentText_js]

theorem truthy_str_js (s : String) (hs : s ≠ "") : truthy (some (.str (js s))) = true := by
  have hd : s.data ≠ [] := by
    intro h
    apply hs
    cases s
    simp_all
  simp [truthy, js, hd]

theorem findStreamingLink_found (d : Json) (link : JsString)
    (hstr : truthy (some (.str link)) = true)
    (hfound : field (field (some d) "data") "streamingLink" = some (.str link)
      ∨ (truthy (field (field (some d) "data") "streamingLink") = false
          ∧ field (field (some d) "data") "stream" = some (.str link))
      ∨ (truthy (field (field (some d) "data") "streamingLink") = false
          ∧ truthy (field (field (some d) "data") "stream") = false
          ∧ field (some d) "streamingLink" = some (.str link))) :
    findStreamingLink d = some (.str link) ∧ ∃ kvs, d = .obj kvs := by
  cases d with
  | obj kvs =>
    refine ⟨?_, kvs, rfl⟩
    have hd : truthy (some (Json.obj kvs)) = true := rfl
    rcases hfound with h | ⟨h1, h2⟩ | ⟨h1, h2, h3⟩
    · have hdd : truthy (field (some (Json.obj kvs)) "data") = true := by
        cases hx : field (some (Json.obj kvs)) "data" with
        | none => rw [hx] at h; simp [field] at h
        | some x =>
          cases x with
          | obj _ => rfl
          | _ => rw [hx] at h; simp [field] at h
      simp [findStreamingLink, jsAnd, jsOr, hd, hdd, h, hstr]
    · have hdd : truthy (field (some (Json.obj kvs)) "data") = true := by
        cases hx : field (some (Json.obj kvs)) "data" with
        | none => rw [hx] at h2; simp [field] at h2
        | some x =>
          cases x with
          | obj _ => rfl
          | _ => rw [hx] at h2; simp [field] at h2
      simp [findStreamingLink, jsAnd, jsOr, hd, hdd, h1, h2, hstr]
    · by_cases hdd : truthy (field (some (Json.obj kvs)) "data") = true
      · simp [findStreamingLink, jsAnd, jsOr, hd, hdd, h1, h2, h3, hstr]
      · simp [findStreamingLink, jsAnd, jsOr, hd, hdd, h3, hstr]
  | null => rcases hfound with h | ⟨_, h⟩ | ⟨_, _, h⟩ <;> simp [field] at h
  | bool _ => rcases hfound with h | ⟨_, h⟩ | ⟨_, _, h⟩ <;> simp [field] at h
  | num _ => rcases hfound with h | ⟨_, h⟩ | ⟨_, _, h⟩ <;> simp [field] at h
  | str _ => rcases hfound with h | ⟨_, h⟩ | ⟨_, _, h⟩ <;> simp [field] at h
  | arr _ => rcases hfound with h | ⟨_, h⟩ | ⟨_, _, h⟩ <;> simp [field] at h

theorem jsonBranch_with_link (up : Upstream) (cache : Cache) (clock : Clock)
    (u key : String) (safeHeaders : Headers) (before : List Effect) (d : Json) (html : String)
    (hget : up.get u safeHeaders = .ok d) (ht : truthy (findStreamingLink d) = true)
    (hpage : playerPage (findStreamingLink d) d = .ok html) :
    jsonBranch up cache clock u key safeHeaders before
      = { response := { status := 200, headers := [("Content-Type", "text/html; charset=utf-8")],
                        body := .text html },
          cache := cache.set clock.write key { type := .json, payload := stringify d },
          trace := before ++ [.fetch u, .cacheSet key] } := by
  simp [jsonBranch, hget, ht, hpage]

theorem jsonBranch_link_error (up : Upstream) (cache : Cache) (clock : Clock)
    (u key : String) (safeHeaders : Headers) (before : List Effect) (d : Json)
    (message : String)
    (hget : up.get u safeHeaders = .ok d) (ht : truthy (findStreamingLink d) = true)
    (hpage : playerPage (findStreamingLink d) d = .error message) :
    jsonBranch up cache clock u key safeHeaders before
      = { response := serverError message, cache := cache,
          trace := before ++ [.fetch u] } := by
  simp [jsonBranch, hget, ht, hpage]

theorem jsonBranch_without_link (up : Upstream) (cache : Cache) (clock : Clock)
    (u key : String) (safeHeaders : Headers) (before : List Effect) (d : Json)
    (hget : up.get u safeHeaders = .ok d) (ht : truthy (findStreamingLink d) = false) :
    jsonBranch up cache clock u key safeHeaders before
      = { response := { status := 200,
                        headers := [("Content-Type", "application/json; charset=utf-8")],
                        body := .text (stringify d) },
          cache := cache.set clock.write key { type := .json, payload := stringify d },
          trace := before ++ [.fetch u, .cacheSet key] } := by
  simp [jsonBranch, hget, ht]

/-! ## Structured fetch with a streaming reference -/

/-- C5, counterexample: `https://example.com/api/data.json` answers
`{"streamingLink":"\ud800"}`. The streaming reference found at top-level
`streamingLink` is a non-empty string, `encodeURIComponent` throws `URIError`
on it, and the Structured-Fetch branch answers with status 500, no HTML body
and no cache entry. -/
theorem unpaired_surrogate_link_gives_500 :
    field (some surrogatePayload) "streamingLink" = some (.str [JsUnit.lone 55296])
    ∧ truthy (some (.str [JsUnit.lone 55296])) = true
    ∧ truthy (field (field (some surrogatePayload) "data") "streamingLink") = false
    ∧ truthy (field (field (some surrogatePayload) "data") "stream") = false
    ∧ (encodeURIComponent [JsUnit.lone 55296]).toOption = none
    ∧ selectStrategy (contentTypeFrom none "https://example.com/api/data.json")
        "https://example.com/api/data.json" = Strategy.structuredFetch
    ∧ proxyRoute httpUrlParses (refusingUpstream surrogatePayload) []
        { lookup := 10, write := 20 }
        { queryUrl := some "https://example.com/api/data.json", headers := [] }
      = { response := { status := 500, headers := [],
                        body := .text "Internal Server Error: URI malformed" },
          cache := [],
          trace := [Effect.cacheGet "proxy:https://example.com/api/data.json",
                    Effect.probe "https://example.com/api/data.json",
                    Effect.fetch "https://example.com/api/data.json"] } := by
  decide

/-- C5, amended: when the Structured-Fetch branch handles target URL `u` and
the parsed payload `d` carries as streaming reference a non-empty string `s`
without unpaired surrogate, found at `data.streamingLink`, else at
`data.stream`, else at top-level `streamingLink`, then
`encodeURIComponent(s)` is defined, the response is an HTML body containing
the player source `/proxy?url=` followed by `encodeURIComponent(s)`, and the
cache entry under `proxy:` + `u` has type `json` and payload
`JSON.stringify(d)`, which is not the synthesized page. -/
theorem structured_fetch_player_and_cached_json (urlParses : String → Bool) (up : Upstream)
    (cache : Cache) (clock : Clock) (req : Request) (u s : String) (d : Json)
    (hu : validateTarget urlParses req = .ok u)
    (hmiss : cachedReply (cache.get clock.lookup ("proxy:" ++ u)) = none)
    (hsel : selectStrategy (contentTypeFrom (up.head u (buildSafeHeaders req.headers [])) u) u
      = Strategy.structuredFetch)
    (hget : up.get u (buildSafeHeaders req.headers []) = .ok d)
    (hs : s ≠ "")
    (hfound : field (field (some d) "data") "streamingLink" = some (.str (js s))
      ∨ (truthy (field (field (some d) "data") "streamingLink") = false
          ∧ field (field (some d) "data") "stream" = some (.str (js s)))
      ∨ (truthy (field (field (some d) "data") "streamingLink") = false
          ∧ truthy (field (field (some d) "data") "stream") = false
          ∧ field (some d) "streamingLink" = some (.str (js s)))) :
    encodeURIComponent (js s) = .ok (percentEncode s)
    ∧ playerPage (some (.str (js s))) d
        = .ok (playerTemplate s (percentEncode s) (stringifyPretty 0 d))
    ∧ (proxyRoute urlParses up cache clock req).response
        = { status := 200, headers := [("Content-Type", "text/html; charset=utf-8")],
            body := .text (playerTemplate s (percentEncode s) (stringifyPretty 0 d)) }
    ∧ jsIncludes (playerTemplate s (percentEncode s) (stringifyPretty 0 d))
        ("/proxy?url=" ++ percentEncode s) = true
    ∧ (∀ t, t ≤ clock.write + ttlMs →
        (proxyRoute urlParses up cache clock req).cache.get t ("proxy:" ++ u)
          = some { type := .json, payload := stringify d })
    ∧ stringify d ≠ playerTemplate s (percentEncode s) (stringifyPretty 0 d) := by
  have hstr := truthy_str_js s hs
  obtain ⟨hlink, kvs, hobj⟩ := findStreamingLink_found d (js s) hstr hfound
  have ht : truthy (findStreamingLink d) = true := by rw [hlink]; exact hstr
  have hpage : playerPage (findStreamingLink d) d
      = .ok (playerTemplate s (percentEncode s) (stringifyPretty 0 d)) := by
    rw [hlink]
    exact playerPage_string s d
  have hroute := proxyRoute_miss urlParses up cache clock req u hu hmiss
  rw [hsel] at hroute
  simp only at hroute
  rw [jsonBranch_with_link up cache clock u _ _ _ d _ hget ht hpage] at hroute
  rw [hroute]
  refine ⟨encodeURIComponent_js s, playerPage_string s d, rfl,
    playerTemplate_includes_source _ _ _, ?_, ?_⟩
  · intro t htt
    exact Cache.get_set_same cache clock.write t _ _ htt
  · intro heq
    have h1 := stringify_obj_head kvs
    have h2 := playerTemplate_head s (percentEncode s) (stringifyPretty 0 d)
    rw [← hobj, heq, h2] at h1
    simp at h1

/-- Witness for C5 amended: target `https://example.com/api/data.json`
answering `{"streamingLink":"https://cdn.example/video.mp4"}`; the player
source is `/proxy?url=https%3A%2F%2Fcdn.example%2Fvideo.mp4`. -/
theorem structured_fetch_player_and_cached_json_witness :
    "/proxy?url=" ++ percentEncode "https://cdn.example/video.mp4"
      = "/proxy?url=https%3A%2F%2Fcdn.example%2Fvideo.mp4"
    ∧ stringify linkPayload = "\x7b\"streamingLink\":\"https://cdn.example/video.mp4\"\x7d"
    ∧ encodeURIComponent (js "https://cdn.example/video.mp4")
        = .ok (percentEncode "https://cdn.example/video.mp4")
    ∧ playerPage (some (.str (js "https://cdn.example/video.mp4"))) linkPayload
        = .ok (playerTemplate "https://cdn.example/video.mp4"
            (percentEncode "https://cdn.example/video.mp4") (stringifyPretty 0 linkPayload))
    ∧ (proxyRoute httpUrlParses (refusingUpstream linkPayload) [] { lookup := 10, write := 20 }
        { queryUrl := some "https://example.com/api/data.json", headers := [] }).response
        = { status := 200, headers := [("Content-Type", "text/html; charset=utf-8")],
            body := .text (playerTemplate "https://cdn.example/video.mp4"
              (percentEncode "https://cdn.example/video.mp4") (stringifyPretty 0 linkPayload)) }
    ∧ jsIncludes (playerTemplate "https://cdn.example/video.mp4"
          (percentEncode "https://cdn.example/video.mp4") (stringifyPretty 0 linkPayload))
        ("/proxy?url=" ++ percentEncode "https://cdn.example/video.mp4") = true
    ∧ (∀ t, t ≤ 20 + ttlMs →
        (proxyRoute httpUrlParses (refusingUpstream linkPayload) [] { lookup := 10, write := 20 }
          { queryUrl := some "https://example.com/api/data.json", headers := [] }).cache.get t
            ("proxy:" ++ "https://example.com/api/data.json")
          = some { type := .json, payload := stringify linkPayload })
    ∧ stringify linkPayload
        ≠ playerTemplate "https://cdn.example/video.mp4"
            (percentEncode "https://cdn.example/video.mp4") (stringifyPretty 0 linkPayload) :=
  ⟨by decide, by decide,
    structured_fetch_player_and_cached_json httpUrlParses (refusingUpstream linkPayload) []
      { lookup := 10, write := 20 }
      { queryUrl := some "https://example.com/api/data.json", headers := [] }
      "https://example.com/api/data.json" "https://cdn.example/video.mp4" linkPayload
      (by rfl) (by decide) (by decide) (by rfl) (by decide)
      (Or.inr (Or.inr ⟨by decide, by decide, by decide⟩))⟩

theorem cachedReply_get_set (c : Cache) (w t : Nat) (key : String) (v : CacheValue)
    (ht : t ≤ w + ttlMs) (hv : v.type = .html ∨ v.type = .json) :
    cachedReply ((c.set w key v).get t key) = some v.payload := by
  rw [Cache.get_set_same c w t key v ht]
  rcases hv with h | h <;> simp [cachedReply, h]

theorem renderBranch_cases (up : Upstream) (cache : Cache) (clock : Clock) (u key : String)
    (safeHeaders : Headers) (before : List Effect) :
    (∃ message, renderBranch up cache clock u key safeHeaders before
        = { response := serverError message, cache := cache,
            trace := before ++ [Effect.render u] })
    ∨ (∃ html, renderBranch up cache clock u key safeHeaders before
        = { response := { status := 200, headers := [("Content-Type", "text/html; charset=utf-8")],
                          body := .text html },
            cache := cache.set clock.write key { type := .html, payload := html },
            trace := before ++ [Effect.render u, Effect.cacheSet key] }) := by
  unfold renderBranch
  cases renderWithPuppeteer up u safeHeaders with
  | error message => exact Or.inl ⟨message, rfl⟩
  | ok html => exact Or.inr ⟨html, rfl⟩

theorem streamBranch_cache_trace (up : Upstream) (cache : Cache) (req : Request) (u : String)
    (safeHeaders : Headers) (before : List Effect) :
    (streamBranch up cache req u safeHeaders before).cache = cache
    ∧ (streamBranch up cache req u safeHeaders before).trace = before ++ [Effect.stream u] := by
  unfold streamBranch
  simp only
  cases up.getStream u (copyIfSet req.headers safeHeaders "range") with
  | error message => exact ⟨rfl, rfl⟩
  | ok streamResp => exact ⟨rfl, rfl⟩

theorem jsonBranch_error (up : Upstream) (cache : Cache) (clock : Clock)
    (u key : String) (safeHeaders : Headers) (before : List Effect) (message : String)
    (hget : up.get u safeHeaders = .error message) :
    jsonBranch up cache clock u key safeHeaders before
      = { response := serverError message, cache := cache,
          trace := before ++ [Effect.fetch u] } := by
  simp [jsonBranch, hget]

/-! ## Repeated requests -/

/-- C3, counterexample: `https://example.com/api/data.json` answers
`{"streamingLink":"https://cdn.example/video.mp4"}`. The first request is
served by the Structured-Fetch Strategy with the player page as body; the
second, two seconds later, is answered from the cache without any upstream
operation, and its body is the cached JSON text, not the body of the first. -/
theorem second_body_differs_after_player_page :
    Effect.fetch "https://example.com/api/data.json"
      ∈ (proxyRoute httpUrlParses (refusingUpstream linkPayload) [] { lookup := 0, write := 1000 }
          { queryUrl := some "https://example.com/api/data.json", headers := [] }).trace
    ∧ (proxyRoute httpUrlParses (refusingUpstream linkPayload) [] { lookup := 0, write := 1000 }
          { queryUrl := some "https://example.com/api/data.json", headers := [] }).response.status
        = 200
    ∧ 3000 ≤ 1000 + ttlMs
    ∧ (proxyRoute httpUrlParses (refusingUpstream linkPayload)
          (proxyRoute httpUrlParses (refusingUpstream linkPayload) []
            { lookup := 0, write := 1000 }
            { queryUrl := some "https://example.com/api/data.json", headers := [] }).cache
          { lookup := 3000, write := 4000 }
          { queryUrl := some "https://example.com/api/data.json", headers := [] }).trace
        = [Effect.cacheGet "proxy:https://example.com/api/data.json"]
    ∧ (proxyRoute httpUrlParses (refusingUpstream linkPayload)
          (proxyRoute httpUrlParses (refusingUpstream linkPayload) []
            { lookup := 0, write := 1000 }
            { queryUrl := some "https://example.com/api/data.json", headers := [] }).cache
          { lookup := 3000, write := 4000 }
          { queryUrl := some "https://example.com/api/data.json", headers := [] }).response.body
        = Body.text "\x7b\"streamingLink\":\"https://cdn.example/video.mp4\"\x7d"
    ∧ (proxyRoute httpUrlParses (refusingUpstream linkPayload)
          (proxyRoute httpUrlParses (refusingUpstream linkPayload) []
            { lookup := 0, write := 1000 }
            { queryUrl := some "https://example.com/api/data.json", headers := [] }).cache
          { lookup := 3000, write := 4000 }
          { queryUrl := some "https://example.com/api/data.json", headers := [] }).response.body
        ≠ (proxyRoute httpUrlParses (refusingUpstream linkPayload) []
            { lookup := 0, write := 1000 }
            { queryUrl := some "https://example.com/api/data.json", headers := [] }).response.body := by
  decide

/-- C3, amended: when the first request for target URL `u` is served
successfully by the Render Strategy or the Structured-Fetch Strategy, a second
request for `u` whose cache lookup falls within the TTL of the entry written
performs the cache lookup only, no upstream or render operation. Its body
equals the body of the first response when that was rendered HTML or a JSON
payload without a streaming reference; when the payload carried a streaming
reference, the first body is the player page (which was built without an
exception, the request having succeeded) and the second body is the cached
`JSON.stringify` of the payload. -/
theorem second_request_within_ttl (urlParses : String → Bool) (up1 up2 : Upstream)
    (cache : Cache) (clock1 clock2 : Clock) (req1 req2 : Request) (u : String)
    (hu1 : validateTarget urlParses req1 = .ok u)
    (hu2 : validateTarget urlParses req2 = .ok u)
    (hserved : Effect.render u ∈ (proxyRoute urlParses up1 cache clock1 req1).trace
      ∨ Effect.fetch u ∈ (proxyRoute urlParses up1 cache clock1 req1).trace)
    (hok : (proxyRoute urlParses up1 cache clock1 req1).response.status = 200)
    (hwin : clock2.lookup ≤ clock1.write + ttlMs) :
    (proxyRoute urlParses up2 (proxyRoute urlParses up1 cache clock1 req1).cache clock2 req2).trace
        = [Effect.cacheGet ("proxy:" ++ u)]
    ∧ (Effect.render u ∈ (proxyRoute urlParses up1 cache clock1 req1).trace →
        (proxyRoute urlParses up2 (proxyRoute urlParses up1 cache clock1 req1).cache
            clock2 req2).response.body
          = (proxyRoute urlParses up1 cache clock1 req1).response.body)
    ∧ (∀ d, Effect.fetch u ∈ (proxyRoute urlParses up1 cache clock1 req1).trace →
        up1.get u (buildSafeHeaders req1.headers []) = .ok d →
        (truthy (findStreamingLink d) = false →
          (proxyRoute urlParses up2 (proxyRoute urlParses up1 cache clock1 req1).cache
              clock2 req2).response.body
            = (proxyRoute urlParses up1 cache clock1 req1).response.body)
        ∧ (truthy (findStreamingLink d) = true →
          ∃ html, playerPage (findStreamingLink d) d = .ok html
          ∧ (proxyRoute urlParses up1 cache clock1 req1).response.body = Body.text html
          ∧ (proxyRoute urlParses up2 (proxyRoute urlParses up1 cache clock1 req1).cache
              clock2 req2).response.body
              = Body.text (stringify d))) := by
  cases hc : cachedReply (cache.get clock1.lookup ("proxy:" ++ u)) with
  | some payload =>
    rw [proxyRoute_hit urlParses up1 cache clock1 req1 u payload hu1 hc] at hserved
    simp at hserved
  | none =>
    have h1 := proxyRoute_miss urlParses up1 cache clock1 req1 u hu1 hc
    cases hsel : selectStrategy
        (contentTypeFrom (up1.head u (buildSafeHeaders req1.headers [])) u) u with
    | render =>
      rw [hsel] at h1
      simp only at h1
      rcases renderBranch_cases up1 cache clock1 u ("proxy:" ++ u)
        (buildSafeHeaders req1.headers [])
        [Effect.cacheGet ("proxy:" ++ u), Effect.probe u] with ⟨m, hb⟩ | ⟨html, hb⟩
      · rw [h1, hb] at hok
        simp [serverError] at hok
      · rw [h1, hb]
        dsimp only
        have hhit := cachedReply_get_set cache clock1.write clock2.lookup ("proxy:" ++ u)
          { type := .html, payload := html } hwin (Or.inl rfl)
        rw [proxyRoute_hit urlParses up2 _ clock2 req2 u html hu2 hhit]
        refine ⟨rfl, fun _ => rfl, ?_⟩
        intro d hf
        simp at hf
    | structuredFetch =>
      rw [hsel] at h1
      simp only at h1
      cases hget : up1.get u (buildSafeHeaders req1.headers []) with
      | error m =>
        rw [h1, jsonBranch_error up1 cache clock1 u _ _ _ m hget] at hok
        simp [serverError] at hok
      | ok d0 =>
        have hhit := cachedReply_get_set cache clock1.write clock2.lookup ("proxy:" ++ u)
          { type := .json, payload := stringify d0 } hwin (Or.inr rfl)
        by_cases ht : truthy (findStreamingLink d0) = true
        · cases hpage : playerPage (findStreamingLink d0) d0 with
          | error m =>
            rw [h1, jsonBranch_link_error up1 cache clock1 u _ _ _ d0 m hget ht hpage] at hok
            simp [serverError] at hok
          | ok html =>
            rw [h1, jsonBranch_with_link up1 cache clock1 u _ _ _ d0 html hget ht hpage]
            dsimp only
            rw [proxyRoute_hit urlParses up2 _ clock2 req2 u (stringify d0) hu2 hhit]
            refine ⟨rfl, ?_, ?_⟩
            · intro hr
              simp at hr
            · intro d _ hd
              cases hd
              refine ⟨?_, fun _ => ⟨html, hpage, rfl, rfl⟩⟩
              intro hf
              rw [ht] at hf
              cases hf
        · have htf : truthy (findStreamingLink d0) = false := by simpa using ht
          rw [h1, jsonBranch_without_link up1 cache clock1 u _ _ _ d0 hget htf]
          dsimp only
          rw [proxyRoute_hit urlParses up2 _ clock2 req2 u (stringify d0) hu2 hhit]
          refine ⟨rfl, ?_, ?_⟩
          · intro hr
            simp at hr
          · intro d _ hd
            cases hd
            refine ⟨fun _ => rfl, ?_⟩
            intro hf
            rw [htf] at hf
            cases hf
    | stream =>
      rw [hsel] at h1
      simp only at h1
      rw [h1, (streamBranch_cache_trace up1 cache req1 u _ _).2] at hserved
      simp at hserved

/-- Witness for C3 amended: `https://example.com/page.html` is rendered at the
first request and answered from the cache, with the same body, at the second. -/
theorem second_request_within_ttl_witness :
    (proxyRoute httpUrlParses (refusingUpstream plainPayload)
        (proxyRoute httpUrlParses (refusingUpstream plainPayload) []
          { lookup := 0, write := 1000 }
          { queryUrl := some "https://example.com/page.html", headers := [] }).cache
        { lookup := 3000, write := 4000 }
        { queryUrl := some "https%3A%2F%2Fexample.com%2Fpage.html",
          headers := [("cookie", "a=b")] }).trace
      = [Effect.cacheGet ("proxy:" ++ "https://example.com/page.html")]
    ∧ (proxyRoute httpUrlParses (refusingUpstream plainPayload)
        (proxyRoute httpUrlParses (refusingUpstream plainPayload) []
          { lookup := 0, write := 1000 }
          { queryUrl := some "https://example.com/page.html", headers := [] }).cache
        { lookup := 3000, write := 4000 }
        { queryUrl := some "https%3A%2F%2Fexample.com%2Fpage.html",
          headers := [("cookie", "a=b")] }).response.body
      = (proxyRoute httpUrlParses (refusingUpstream plainPayload) []
          { lookup := 0, write := 1000 }
          { queryUrl := some "https://example.com/page.html", headers := [] }).response.body :=
  have h := second_request_within_ttl httpUrlParses (refusingUpstream plainPayload)
    (refusingUpstream plainPayload) [] { lookup := 0, write := 1000 }
    { lookup := 3000, write := 4000 }
    { queryUrl := some "https://example.com/page.html", headers := [] }
    { queryUrl := some "https%3A%2F%2Fexample.com%2Fpage.html", headers := [("cookie", "a=b")] }
    "https://example.com/page.html" (by rfl) (by rfl) (Or.inl (by decide)) (by decide)
    (by decide)
  ⟨h.1, h.2.1 (by decide)⟩

theorem proxyRoute_stream_outcome (urlParses : String → Bool) (up : Upstream) (cache : Cache)
    (clock : Clock) (req : Request) (u : String)
    (hu : validateTarget urlParses req = .ok u)
    (hvideo : contentTypeFrom (up.head u (buildSafeHeaders req.headers [])) u
      = some ContentType.video)
    (hapi : apiRx.test u.data = false) (hjson : jsonExtRx.test u.data = false) :
    (proxyRoute urlParses up cache clock req).cache = cache
    ∧ ((proxyRoute urlParses up cache clock req).trace = [Effect.cacheGet ("proxy:" ++ u)]
      ∨ (proxyRoute urlParses up cache clock req).trace
          = [Effect.cacheGet ("proxy:" ++ u), Effect.probe u, Effect.stream u]) := by
  cases hc : cachedReply (cache.get clock.lookup ("proxy:" ++ u)) with
  | some payload =>
    rw [proxyRoute_hit urlParses up cache clock req u payload hu hc]
    exact ⟨rfl, Or.inl rfl⟩
  | none =>
    have hsel : selectStrategy (some ContentType.video) u = Strategy.stream := by
      simp [selectStrategy, hapi, hjson]
    rw [proxyRoute_miss urlParses up cache clock req u hu hc, hvideo, hsel]
    simp only
    obtain ⟨h1, h2⟩ := streamBranch_cache_trace up cache req u (buildSafeHeaders req.headers [])
      [Effect.cacheGet ("proxy:" ++ u), Effect.probe u]
    exact ⟨h1, Or.inr (by rw [h2]; rfl)⟩

/-! ## Video requests and the cache -/

/-- C4, counterexample: `https://example.com/api/clip.mp4` with the probe
refused is classified VIDEO; handling it reads the cache (the lookup precedes
classification) and, the URL containing `/api/`, goes through the JSON branch,
which writes an entry: the cache after the request differs from the cache
before it. -/
theorem video_request_reads_and_writes_cache :
    contentTypeFrom ((refusingUpstream plainPayload).head "https://example.com/api/clip.mp4"
        (buildSafeHeaders [] [])) "https://example.com/api/clip.mp4" = some ContentType.video
    ∧ (proxyRoute httpUrlParses (refusingUpstream plainPayload) [] { lookup := 0, write := 1000 }
        { queryUrl := some "https://example.com/api/clip.mp4", headers := [] }).trace
        = [Effect.cacheGet "proxy:https://example.com/api/clip.mp4",
           Effect.probe "https://example.com/api/clip.mp4",
           Effect.fetch "https://example.com/api/clip.mp4",
           Effect.cacheSet "proxy:https://example.com/api/clip.mp4"]
    ∧ (proxyRoute httpUrlParses (refusingUpstream plainPayload) [] { lookup := 0, write := 1000 }
        { queryUrl := some "https://example.com/api/clip.mp4", headers := [] }).cache
        = [("proxy:https://example.com/api/clip.mp4",
            { value := { type := .json, payload := "\x7b\"ok\":true\x7d" },
              expires := 301000 })]
    ∧ (proxyRoute httpUrlParses (refusingUpstream plainPayload) [] { lookup := 0, write := 1000 }
        { queryUrl := some "https://example.com/api/clip.mp4", headers := [] }).cache ≠ [] := by
  decide

/-- C4, amended: a request whose classification is VIDEO and whose URL does
not match the JSON URL pattern (no `/api/`, no `.json` at the end or before a
`?`) writes no cache entry: the cache after the request equals the cache
before it, however often such requests are repeated. The cache is read once
per request, by the lookup that precedes classification; the request then
either is answered from the cache or probes and streams. -/
theorem video_stream_requests_leave_cache (urlParses : String → Bool)
    (rs : List (Upstream × Clock × Request))
    (hvideo : ∀ r ∈ rs, ∃ u, validateTarget urlParses r.2.2 = .ok u
      ∧ contentTypeFrom (r.1.head u (buildSafeHeaders r.2.2.headers [])) u
          = some ContentType.video
      ∧ apiRx.test u.data = false ∧ jsonExtRx.test u.data = false)
    (cache : Cache) :
    serveAll urlParses cache rs = cache
    ∧ ∀ r ∈ rs, ∃ u, validateTarget urlParses r.2.2 = .ok u
      ∧ (proxyRoute urlParses r.1 cache r.2.1 r.2.2).cache = cache
      ∧ ((proxyRoute urlParses r.1 cache r.2.1 r.2.2).trace = [Effect.cacheGet ("proxy:" ++ u)]
        ∨ (proxyRoute urlParses r.1 cache r.2.1 r.2.2).trace
            = [Effect.cacheGet ("proxy:" ++ u), Effect.probe u, Effect.stream u]) := by
  constructor
  · induction rs with
    | nil => rfl
    | cons r rs ih =>
      obtain ⟨up, clock, req⟩ := r
      obtain ⟨u, hu, hv, ha, hj⟩ := hvideo (up, clock, req) (List.mem_cons_self _ _)
      have h := (proxyRoute_stream_outcome urlParses up cache clock req u hu hv ha hj).1
      simp only [serveAll, h]
      exact ih (fun r hr => hvideo r (List.mem_cons_of_mem _ hr))
  · intro r hr
    obtain ⟨u, hu, hv, ha, hj⟩ := hvideo r hr
    have h := proxyRoute_stream_outcome urlParses r.1 cache r.2.1 r.2.2 u hu hv ha hj
    exact ⟨u, hu, h.1, h.2⟩

/-- Witness for C4 amended: `https://example.com/media/clip.mp4` requested
twice, first with the probe refused and then with a probe answering
`video/mp4`; the cache stays empty. -/
theorem video_stream_requests_leave_cache_witness :
    serveAll httpUrlParses []
      [(refusingUpstream plainPayload, { lookup := 0, write := 1000 },
          { queryUrl := some "https://example.com/media/clip.mp4", headers := [] }),
       (probedUpstream [("content-type", "video/mp4")] plainPayload,
          { lookup := 2000, write := 3000 },
          { queryUrl := some "https://example.com/media/clip.mp4",
            headers := [("range", "bytes=0-")] })] = [] :=
  (video_stream_requests_leave_cache httpUrlParses
    [(refusingUpstream plainPayload, { lookup := 0, write := 1000 },
        { queryUrl := some "https://example.com/media/clip.mp4", headers := [] }),
     (probedUpstream [("content-type", "video/mp4")] plainPayload,
        { lookup := 2000, write := 3000 },
        { queryUrl := some "https://example.com/media/clip.mp4",
          headers := [("range", "bytes=0-")] })]
    (by
      intro r hr
      simp only [List.mem_cons, List.mem_singleton, List.not_mem_nil, or_false] at hr
      rcases hr with h | h
      · subst h
        exact ⟨"https://example.com/media/clip.mp4", by rfl, by decide, by decide, by decide⟩
      · subst h
        exact ⟨"https://example.com/media/clip.mp4", by rfl, by decide, by decide, by decide⟩)
    []).1

end Proxy
